import Mathlib

/-!
Shallow embedding of the VidyaLok personalized recommendation engine
(recommendation service module). The database and the catalog snapshot are
modelled explicitly; every query the service issues is replayed as a pure
function over that model, with JS insertion-ordered Maps/Sets rendered as
lists with first-occurrence semantics and the (stable) JS sort rendered as
List.mergeSort.
-/

namespace VidyaLok

/-- Milliseconds in one day, used by the recency computations. -/
def msPerDay : Int := 86400000

/-- Window, in days, for the new-arrival signal (NEW_ARRIVAL_DAYS). -/
def newArrivalDays : Int := 60

/-- Lookback window in days for the popularity ranking (POPULAR_LOOKBACK_DAYS). -/
def popularLookbackDays : Int := 90

/-- Bounded sample size for the popularity ranking (POPULAR_SAMPLE_SIZE). -/
def popularSampleSize : Nat := 300

/-- Lifecycle status of a borrowing record. -/
inductive BorrowStatus where
  | BORROWED
  | OVERDUE
  | RENEWED
  | RETURNED
deriving DecidableEq, Repr

/-- User row as selected by the service: id, branch, department, interests. -/
structure User where
  id : String
  branch : Option String
  department : Option String
  interests : List String
deriving DecidableEq, Repr

/-- Borrowing row: user, book, status and borrow date (ms timestamp). -/
structure Borrowing where
  userId : String
  bookId : String
  status : BorrowStatus
  borrowDate : Int
deriving DecidableEq, Repr

/-- Book row as selected by the candidate queries (RecommendationCandidate). -/
structure Book where
  id : String
  title : String
  author : Option String
  category : String
  department : String
  availableCopies : Int
  addedAt : Int
deriving DecidableEq, Repr

/-- Entry of the flat denormalized catalog snapshot read by the dataset bridge. -/
structure DatasetBook where
  id : String
  title : String
  author : String
  department : String
  copies : Int
deriving DecidableEq, Repr

/-- The store plus the snapshot source; a snapshot load failure is an error value. -/
structure DB where
  users : List User
  books : List Book
  borrowings : List Borrowing
  snapshot : Except String (List DatasetBook)

/-- Output entity (PersonalizedRecommendation). -/
structure PersonalizedRecommendation where
  id : String
  title : String
  author : String
  category : String
  department : String
  availableCopies : Int
  score : Nat
  reasons : List String
  isNewArrival : Bool
  isPopular : Bool
deriving DecidableEq, Repr

/-- Per-call personalization context (RecommendationContext). -/
structure RecommendationContext where
  explicitInterests : List String
  derivedCategories : List String
  department : Option String
  fallbackUsed : Bool
deriving DecidableEq, Repr

/-- Result shape of the engine (RecommendationResult). -/
structure RecommendationResult where
  items : List PersonalizedRecommendation
  context : RecommendationContext
deriving DecidableEq, Repr

/-- Input shape of the engine (RecommendationInput). -/
structure RecommendationInput where
  userId : String
  limit : Option Nat
  excludeBookIds : Option (List String)
deriving DecidableEq, Repr

/-- JS Set.add on a string set kept as an insertion-ordered duplicate-free list. -/
def insertIfAbsent (xs : List String) (x : String) : List String :=
  if xs.contains x then xs else xs ++ [x]

/-- Keep the first occurrence of every string (the iteration order of a JS Set
built from the list). -/
def dedupFirst (xs : List String) : List String :=
  xs.foldl insertIfAbsent []

/-- JS Map.set keyed by book id: replace in place, else append. -/
def setBook : List Book → Book → List Book
  | [], b => [b]
  | x :: xs, b => if x.id == b.id then b :: xs else x :: setBook xs b

/-- Membership test on the candidate map (Map.has by book id). -/
def containsBookId (m : List Book) (i : String) : Bool :=
  m.any (fun x => x.id == i)

/-- Guarded Map.set used by the fallback merges: only add ids not yet present. -/
def insertBookIfAbsent (m : List Book) (b : Book) : List Book :=
  if containsBookId m b.id then m else m ++ [b]

/-- Substring test on character lists, mirroring JS String.includes. -/
def listIncludes (pat : List Char) : List Char → Bool
  | [] => pat.isEmpty
  | c :: cs => pat.isPrefixOf (c :: cs) || listIncludes pat cs

/-- JS String.includes. -/
def strIncludes (s pat : String) : Bool :=
  listIncludes pat.data s.data

/-- JS truthiness of an optional string (null and the empty string are falsy). -/
def truthyStr : Option String → Bool
  | none => false
  | some s => s ≠ ""

/-- buildExcludeSet: caller-supplied exclusions unioned with the active
borrowings' book ids, skipping falsy (empty) ids. -/
def buildExcludeSet (excludeBookIds : Option (List String))
    (activeBookIds : List String) : List String :=
  (excludeBookIds.getD [] ++ activeBookIds.filter (fun i => i ≠ "")).foldl
    insertIfAbsent []

/-- Trimmed, non-empty categories of a joined history list, in order. -/
def trimmedCategories (history : List (Option String)) : List String :=
  history.filterMap (fun o =>
    match o with
    | none => none
    | some c => if c.trim = "" then none else some c.trim)

/-- collectTopCategoriesFromHistory: count trimmed categories, keep those seen
at least twice, rank by descending count (stable on ties). -/
def collectTopCategoriesFromHistory (history : List (Option String)) : List String :=
  let cats := trimmedCategories history
  let entries := (dedupFirst cats).map (fun k => (k, cats.count k))
  ((entries.filter (fun e => 2 ≤ e.2)).mergeSort
    (fun a b => decide (b.2 ≤ a.2))).map (fun e => e.1)

/-- Sort key for queries ordered by descending arrival date (addedAt desc). -/
def byAddedAtDesc (a b : Book) : Bool :=
  decide (b.addedAt ≤ a.addedAt)

/-- Sort key for queries ordered by descending borrow date. -/
def byBorrowDateDesc (a b : Borrowing) : Bool :=
  decide (b.borrowDate ≤ a.borrowDate)

/-- prisma.user.findUnique on the id. -/
def findUser (db : DB) (userId : String) : Option User :=
  db.users.find? (fun u => u.id == userId)

/-- Whether a status counts as active (BORROWED, OVERDUE, RENEWED). -/
def isActiveStatus : BorrowStatus → Bool
  | .BORROWED => true
  | .OVERDUE => true
  | .RENEWED => true
  | .RETURNED => false

/-- The active borrowings query: bookIds of this user's active-status rows. -/
def activeBookIds (db : DB) (uid : String) : List String :=
  (db.borrowings.filter (fun b => b.userId == uid && isActiveStatus b.status)).map
    (fun b => b.bookId)

/-- The recent-history query: this user's 40 most recent borrowings (any
status, borrow date descending) joined with the book's category. -/
def recentHistory (db : DB) (uid : String) : List (Option String) :=
  (((db.borrowings.filter (fun b => b.userId == uid)).mergeSort
      byBorrowDateDesc).take 40).map
    (fun b => (db.books.find? (fun bk => bk.id == b.bookId)).map
      (fun bk => bk.category))

/-- fetchPopularBookIds: ids ranked by borrow count inside the 90-day window,
sampled from the 300 most recent rows of that window. -/
def fetchPopularBookIds (db : DB) (nowMs : Int) : List String :=
  let lookbackStart := nowMs - popularLookbackDays * msPerDay
  let window := db.borrowings.filter (fun b => decide (lookbackStart ≤ b.borrowDate))
  let sample := (window.mergeSort byBorrowDateDesc).take popularSampleSize
  let ids := (sample.map (fun b => b.bookId)).filter (fun i => i ≠ "")
  let entries := (dedupFirst ids).map (fun k => (k, ids.count k))
  (entries.mergeSort (fun a b => decide (b.2 ≤ a.2))).map (fun e => e.1)

/-- fetchBooksByIds: look each id up in the store, keeping the ids' order and
dropping misses. -/
def fetchBooksByIds (db : DB) (bookIds : List String) : List Book :=
  bookIds.filterMap (fun i => db.books.find? (fun b => b.id == i))

/-- The OR clause of the primary candidate query: category in the candidate
categories, or department equal to a truthy user department; when neither
clause is present the filter is absent (matches everything). -/
def primaryOrClause (categories : List String) (department : Option String)
    (b : Book) : Bool :=
  if categories.isEmpty && !truthyStr department then true
  else
    categories.contains b.category ||
      (match department with
       | some d => if d ≠ "" then b.department == d else false
       | none => false)

/-- fetchCandidateBooks: available, not excluded, matching the OR clause,
ordered by arrival date descending and capped. -/
def fetchCandidateBooks (db : DB) (categories : List String)
    (department : Option String) (excludeIds : List String) (limit : Nat) :
    List Book :=
  let pool := db.books.filter (fun b =>
    decide (0 < b.availableCopies) && !excludeIds.contains b.id &&
      primaryOrClause categories department b)
  (pool.mergeSort byAddedAtDesc).take limit

/-- The broad fallback query: available, not excluded, no category or
department filter, ordered by arrival date descending and capped. -/
def fetchFallbackBooks (db : DB) (excludeIds : List String) (limit : Nat) :
    List Book :=
  let pool := db.books.filter (fun b =>
    decide (0 < b.availableCopies) && !excludeIds.contains b.id)
  (pool.mergeSort byAddedAtDesc).take limit

/-- Reason text of the explicit-interest signal. -/
def interestReason (category : String) : String :=
  "Matches your interest in " ++ category

/-- Reason text of the derived-category signal. -/
def derivedReason (category : String) : String :=
  "You often borrow " ++ category ++ " titles"

/-- Reason text of the affiliation signal. -/
def departmentReason : String := "From your department collection"

/-- Reason text of the new-arrival signal. -/
def newArrivalReason : String := "New arrival this term"

/-- Reason text of the popularity signal. -/
def popularReason : String := "Popular with other students"

/-- Reason injected when no signal matched. -/
def baselineReason : String := "Handpicked by the library team"

/-- New-arrival test: absolute age in milliseconds within 60 days. -/
def isNewArrivalAt (nowMs addedAt : Int) : Bool :=
  decide ((nowMs - addedAt).natAbs ≤ (newArrivalDays * msPerDay).toNat)

/-- Affiliation test of the scorer: a truthy user department equal to the
candidate's department. -/
def deptMatches (dept : Option String) (candDept : String) : Bool :=
  truthyStr dept &&
    (match dept with
     | some d => candDept == d
     | none => false)

/-- enrichCandidates on one candidate: accumulate score and reasons signal by
signal, forcing a baseline when nothing fired. -/
def enrichOne (context : RecommendationContext) (popularIds : List String)
    (derivedCategorySet : List String) (nowMs : Int) (candidate : Book) :
    PersonalizedRecommendation :=
  let s0 : Nat := 0
  let r0 : List String := []
  let p1 :=
    if context.explicitInterests.contains candidate.category then
      (s0 + 3, insertIfAbsent r0 (interestReason candidate.category))
    else (s0, r0)
  let p2 :=
    if derivedCategorySet.contains candidate.category then
      (p1.1 + 2, insertIfAbsent p1.2 (derivedReason candidate.category))
    else p1
  let p3 :=
    if deptMatches context.department candidate.department then
      (p2.1 + 2, insertIfAbsent p2.2 departmentReason)
    else p2
  let isNew := isNewArrivalAt nowMs candidate.addedAt
  let p4 := if isNew then (p3.1 + 1, insertIfAbsent p3.2 newArrivalReason) else p3
  let isPop := popularIds.contains candidate.id
  let p5 := if isPop then (p4.1 + 1, insertIfAbsent p4.2 popularReason) else p4
  let final := if p5.1 == 0 then (1, insertIfAbsent p5.2 baselineReason) else p5
  { id := candidate.id
    title := candidate.title
    author := candidate.author.getD "Unknown author"
    category := candidate.category
    department := candidate.department
    availableCopies := candidate.availableCopies
    score := final.1
    reasons := final.2
    isNewArrival := isNew
    isPopular := isPop }

/-- enrichCandidates over a candidate list. -/
def enrichCandidates (candidates : List Book) (context : RecommendationContext)
    (popularIds : List String) (derivedCategorySet : List String)
    (nowMs : Int) : List PersonalizedRecommendation :=
  candidates.map (enrichOne context popularIds derivedCategorySet nowMs)

/-- Comparator of the scored path: score descending, ties by available copies
descending (stable beyond that). -/
def scoredLE (a b : PersonalizedRecommendation) : Bool :=
  decide (b.score < a.score) ||
    (a.score == b.score && decide (b.availableCopies ≤ a.availableCopies))

/-- Effective limit of a call: the supplied limit, default 6. -/
def limitOf (input : RecommendationInput) : Nat :=
  input.limit.getD 6

/-- Deduplicated, truthy explicit interests of the user. -/
def interestsOf (user : User) : List String :=
  (dedupFirst user.interests).filter (fun s => s ≠ "")

/-- Resolved affiliation: branch, else department, else null. -/
def departmentOf (user : User) : Option String :=
  user.branch.orElse (fun _ => user.department)

/-- Exclusion set of a call: caller ids plus active borrowings. -/
def excludeIdsFor (db : DB) (input : RecommendationInput) (user : User) :
    List String :=
  buildExcludeSet input.excludeBookIds (activeBookIds db user.id)

/-- Derived categories of the user from the recent-history query. -/
def derivedFor (db : DB) (user : User) : List String :=
  collectTopCategoriesFromHistory (recentHistory db user.id)

/-- Top-20 popular id set, in ranking order. -/
def popularIdSetFor (db : DB) (nowMs : Int) : List String :=
  (fetchPopularBookIds db nowMs).take 20

/-- Categories driving the primary query: interests then derived, deduplicated. -/
def candidateCategoriesFor (db : DB) (user : User) : List String :=
  dedupFirst (interestsOf user ++ derivedFor db user)

/-- Primary-tier candidates. -/
def primaryFor (db : DB) (input : RecommendationInput) (user : User) :
    List Book :=
  fetchCandidateBooks db (candidateCategoriesFor db user) (departmentOf user)
    (excludeIdsFor db input user) (limitOf input * 3)

/-- Primary candidates loaded into the insertion-ordered candidate map. -/
def primaryMapFor (db : DB) (input : RecommendationInput) (user : User) :
    List Book :=
  (primaryFor db input user).foldl setBook []

/-- The tiered merge: broad fallback and popularity top-up run only while the
map holds fewer distinct candidates than the limit; the boolean is the
fallbackUsed flag set by the tier stage. -/
def mergedMapFor (db : DB) (nowMs : Int) (input : RecommendationInput)
    (user : User) : List Book × Bool :=
  let limit := limitOf input
  let m0 := primaryMapFor db input user
  if m0.length < limit then
    let fb := fetchFallbackBooks db (excludeIdsFor db input user) (limit * 3)
    let m1 := fb.foldl insertBookIfAbsent m0
    let pop := popularIdSetFor db nowMs
    let m2 :=
      if m1.length < limit && !pop.isEmpty then
        let remaining := (pop.filter (fun i =>
          !containsBookId m1 i && !(excludeIdsFor db input user).contains i)).take
          (limit * 2)
        (fetchBooksByIds db remaining).foldl insertBookIfAbsent m1
      else m1
    (m2, true)
  else (m0, false)

/-- Context built after the tier stage (before the dataset bridge). -/
def contextFor (db : DB) (nowMs : Int) (input : RecommendationInput)
    (user : User) : RecommendationContext :=
  { explicitInterests := interestsOf user
    derivedCategories := derivedFor db user
    department := departmentOf user
    fallbackUsed := (mergedMapFor db nowMs input user).2 }

/-- Scored candidates of the call. -/
def enrichedFor (db : DB) (nowMs : Int) (input : RecommendationInput)
    (user : User) : List PersonalizedRecommendation :=
  enrichCandidates (mergedMapFor db nowMs input user).1
    (contextFor db nowMs input user) (popularIdSetFor db nowMs)
    (derivedFor db user) nowMs

/-- Ranked and truncated scored-path output of the call. -/
def scoredItemsFor (db : DB) (nowMs : Int) (input : RecommendationInput)
    (user : User) : List PersonalizedRecommendation :=
  ((enrichedFor db nowMs input user).mergeSort scoredLE).take (limitOf input)

/-- Reason text of a popular snapshot entry in the dataset bridge. -/
def bridgePopularReason : String := "Popular in the general catalog"

/-- Reason injected when a bridge entry gathered no reasons. -/
def bridgeFeaturedReason : String := "Featured from the library catalog"

/-- Intermediate scored record of the dataset bridge. -/
structure BridgeScored where
  book : DatasetBook
  score : Nat
  reasons : List String
  matchedInterest : Option String
deriving DecidableEq, Repr

/-- Lowercased, trimmed, truthy interest tokens (note: filtering shifts the
indices used to recover the original interest, exactly as in the source). -/
def interestTokens (explicitInterests : List String) : List String :=
  (explicitInterests.map (fun s => s.trim.toLower)).filter (fun t => t ≠ "")

/-- One step of the token loop of the bridge scorer: on a substring hit add 3,
record the reason, and remember the first truthy matched interest. -/
def bridgeTokenStep (explicitInterests : List String) (searchable : String)
    (acc : Nat × List String × Option String) (p : Nat × String) :
    Nat × List String × Option String :=
  if strIncludes searchable p.2 then
    let originalInterest := explicitInterests.getD p.1 ""
    (acc.1 + 3, insertIfAbsent acc.2.1 (interestReason originalInterest),
      match acc.2.2 with
      | some m => if m = "" then some originalInterest else some m
      | none => some originalInterest)
  else acc

/-- Affiliation test of the bridge: case-insensitive equality against a
truthy user department. -/
def bridgeDeptMatches (dept : Option String) (bookDept : String) : Bool :=
  truthyStr dept &&
    (match dept with
     | some d => bookDept.toLower == d.toLower
     | none => false)

/-- Lexical scorer of the dataset bridge for one snapshot entry. -/
def bridgeScoreOne (explicitInterests : List String)
    (department : Option String) (book : DatasetBook) : BridgeScored :=
  let searchable := (book.title ++ " " ++ book.author).toLower
  let t1 := (interestTokens explicitInterests).enum.foldl
    (bridgeTokenStep explicitInterests searchable) (1, [], none)
  let t2 :=
    if bridgeDeptMatches department book.department then
      (t1.1 + 2, insertIfAbsent t1.2.1 departmentReason, t1.2.2)
    else t1
  let t3 :=
    if decide (5 ≤ book.copies) then
      (t2.1 + 1, insertIfAbsent t2.2.1 bridgePopularReason, t2.2.2)
    else t2
  { book := book, score := t3.1, reasons := t3.2.1, matchedInterest := t3.2.2 }

/-- Comparator of the bridge: score descending, copies descending, title
ascending. -/
def bridgeLE (a b : BridgeScored) : Bool :=
  decide (b.score < a.score) ||
    (a.score == b.score &&
      (decide (b.book.copies < a.book.copies) ||
        (a.book.copies == b.book.copies && !decide (b.book.title < a.book.title))))

/-- Bridge scoring over the non-excluded snapshot entries, in snapshot order. -/
def bridgeScoredFor (explicitInterests : List String)
    (department : Option String) (excludeIds : List String)
    (books : List DatasetBook) : List BridgeScored :=
  (books.filter (fun b => !excludeIds.contains b.id)).map
    (bridgeScoreOne explicitInterests department)

/-- Ranked, truncated bridge records. -/
def bridgeSortedFor (explicitInterests : List String)
    (department : Option String) (limit : Nat) (excludeIds : List String)
    (books : List DatasetBook) : List BridgeScored :=
  ((bridgeScoredFor explicitInterests department excludeIds books).mergeSort
    bridgeLE).take limit

/-- Final record shape of a bridge recommendation. -/
def bridgeConvert (sc : BridgeScored) : PersonalizedRecommendation :=
  { id := "dataset-" ++ sc.book.id
    title := sc.book.title
    author := if sc.book.author == "" then "Unknown author" else sc.book.author
    category := sc.matchedInterest.getD sc.book.department
    department := sc.book.department
    availableCopies := max sc.book.copies 1
    score := sc.score
    reasons := if sc.reasons.isEmpty then [bridgeFeaturedReason] else sc.reasons
    isNewArrival := false
    isPopular := decide (5 ≤ sc.book.copies) }

/-- buildDatasetFallback: last-resort recommendations from the snapshot; a
load failure is caught and yields the empty list. -/
def buildDatasetFallback (snapshot : Except String (List DatasetBook))
    (explicitInterests : List String) (department : Option String)
    (limit : Nat) (excludeIds : List String) :
    List PersonalizedRecommendation :=
  match snapshot with
  | .error _ => []
  | .ok books =>
    if books.isEmpty then []
    else
      (bridgeSortedFor explicitInterests department limit excludeIds books).map
        bridgeConvert

/-- getPersonalizedRecommendations: the full engine. -/
def getPersonalizedRecommendations (db : DB) (nowMs : Int)
    (input : RecommendationInput) : RecommendationResult :=
  match findUser db input.userId with
  | none =>
    { items := []
      context :=
        { explicitInterests := []
          derivedCategories := []
          department := none
          fallbackUsed := true } }
  | some user =>
    let ctx := contextFor db nowMs input user
    let items := scoredItemsFor db nowMs input user
    if items.isEmpty then
      let ds := buildDatasetFallback db.snapshot (interestsOf user)
        (departmentOf user) (limitOf input) (excludeIdsFor db input user)
      if ds.isEmpty then { items := items, context := ctx }
      else { items := ds, context := { ctx with fallbackUsed := true } }
    else { items := items, context := ctx }

/-- Closed-form score of the five independent signals. -/
def signalScore (i d dep n p : Bool) : Nat :=
  (if i then 3 else 0) + (if d then 2 else 0) + (if dep then 2 else 0) +
    (if n then 1 else 0) + (if p then 1 else 0)

/-- Closed-form reason list of the five independent signals. -/
def signalReasons (cat : String) (i d dep n p : Bool) : List String :=
  (if i then [interestReason cat] else []) ++
    (if d then [derivedReason cat] else []) ++
    (if dep then [departmentReason] else []) ++
    (if n then [newArrivalReason] else []) ++
    (if p then [popularReason] else [])

/-- The exclusion set named by the specification: ids supplied by the caller
together with the book ids of the user's active-status borrowings. -/
def ExcludedId (db : DB) (input : RecommendationInput) (user : User)
    (x : String) : Prop :=
  x ∈ input.excludeBookIds.getD [] ∨ x ∈ activeBookIds db user.id

/-- Sample snapshot entry used by the concrete witnesses. -/
def wdsb : DatasetBook :=
  { id := "d1", title := "Data Systems", author := "A Writer"
    department := "CE", copies := 7 }

/-- Sample empty store used by the concrete witnesses. -/
def wdb0 : DB :=
  { users := [], books := [], borrowings := [], snapshot := Except.ok [] }

/-- Sample user used by the concrete witnesses. -/
def wuser : User :=
  { id := "u1", branch := some "CE", department := none, interests := ["CS"] }

/-- Sample store with a failing snapshot used by the concrete witnesses. -/
def wdbErr : DB :=
  { users := [wuser], books := [], borrowings := []
    snapshot := Except.error "boom" }

/-- Sample input used by the concrete witnesses. -/
def winput0 : RecommendationInput :=
  { userId := "u", limit := none, excludeBookIds := none }

/-- Sample input matching the sample user. -/
def winput1 : RecommendationInput :=
  { userId := "u1", limit := none, excludeBookIds := none }

/-- Sample catalog book used by the concrete witnesses. -/
def wbook : Book :=
  { id := "b1", title := "T", author := some "A", category := "CS"
    department := "CE", availableCopies := 2, addedAt := 0 }

/-- Sample populated store used by the concrete witnesses. -/
def wdb1 : DB :=
  { users := [wuser], books := [wbook], borrowings := []
    snapshot := Except.ok [wdsb] }

/-- Scenario context of the specification: explicit interest, derived
category and affiliation all set. -/
def wctx9 : RecommendationContext :=
  { explicitInterests := ["Computer Science"]
    derivedCategories := ["Computer Science"]
    department := some "Computer Engineering"
    fallbackUsed := false }

/-- Scenario candidate: matching category and department, arrived 10 days
before evaluation time zero reference. -/
def wc9 : Book :=
  { id := "b9", title := "T9", author := none
    category := "Computer Science", department := "Computer Engineering"
    availableCopies := 3, addedAt := 0 }

/-- Scenario evaluation instant: 10 days after the candidate arrived. -/
def wnow9 : Int := 10 * 86400000

/-! Helper lemmas about the JS collection embedding and the scorer. -/

theorem mem_insertIfAbsent {xs : List String} {x y : String} :
    y ∈ insertIfAbsent xs x ↔ y ∈ xs ∨ y = x := by
  simp only [insertIfAbsent]
  split
  · rename_i h
    rw [List.contains_iff_exists_mem_beq] at h
    obtain ⟨b, hb, hbeq⟩ := h
    constructor
    · exact Or.inl
    · rintro (h1 | rfl)
      · exact h1
      · exact (eq_of_beq hbeq) ▸ hb
  · simp [or_comm]

theorem insertIfAbsent_ne_nil {xs : List String} {x : String} :
    insertIfAbsent xs x ≠ [] := by
  simp only [insertIfAbsent]
  split
  · rename_i h
    rw [List.contains_iff_exists_mem_beq] at h
    obtain ⟨b, hb, -⟩ := h
    exact List.ne_nil_of_mem hb
  · simp

theorem nodup_insertIfAbsent {xs : List String} {x : String} (h : xs.Nodup) :
    (insertIfAbsent xs x).Nodup := by
  simp only [insertIfAbsent]
  split
  · exact h
  · rename_i hc
    have hx : x ∉ xs := by
      intro hm
      exact hc (by rw [List.contains_iff_exists_mem_beq]; exact ⟨x, hm, by simp⟩)
    simp [List.nodup_append, h, hx]

theorem mem_foldl_insertIfAbsent {l : List String} :
    ∀ {init : List String} {y : String},
      y ∈ l.foldl insertIfAbsent init ↔ y ∈ init ∨ y ∈ l := by
  induction l with
  | nil => simp
  | cons a l ih =>
    intro init y
    simp only [List.foldl_cons, ih, mem_insertIfAbsent, List.mem_cons]
    tauto

theorem mem_dedupFirst {l : List String} {y : String} :
    y ∈ dedupFirst l ↔ y ∈ l := by
  simp [dedupFirst, mem_foldl_insertIfAbsent]

theorem mem_buildExcludeSet {ex : Option (List String)} {act : List String}
    {y : String} :
    y ∈ buildExcludeSet ex act ↔ y ∈ ex.getD [] ∨ (y ∈ act ∧ y ≠ "") := by
  simp [buildExcludeSet, mem_foldl_insertIfAbsent]

theorem head_interestReason (a : String) :
    (interestReason a).data.head? = some 'M' := rfl

theorem head_derivedReason (a : String) :
    (derivedReason a).data.head? = some 'Y' := rfl

theorem interestReason_ne_iff {a b : String} : interestReason a ≠ derivedReason b := by
  intro h
  have h2 : (interestReason a).data.head? = (derivedReason b).data.head? := by rw [h]
  rw [head_interestReason, head_derivedReason] at h2
  simp at h2

theorem ne_of_head {s t : String} {c d : Char} (hs : s.data.head? = some c)
    (ht : t.data.head? = some d) (hcd : c ≠ d) : s ≠ t := by
  intro h
  rw [h, ht] at hs
  exact hcd (Option.some.inj hs).symm

theorem head_departmentReason : departmentReason.data.head? = some 'F' := rfl
theorem head_newArrivalReason : newArrivalReason.data.head? = some 'N' := rfl
theorem head_popularReason : popularReason.data.head? = some 'P' := rfl

theorem derived_ne_interest (a b : String) :
    derivedReason a ≠ interestReason b :=
  ne_of_head (head_derivedReason a) (head_interestReason b) (by decide)

theorem department_ne_interest (a : String) :
    departmentReason ≠ interestReason a :=
  ne_of_head head_departmentReason (head_interestReason a) (by decide)

theorem department_ne_derived (a : String) :
    departmentReason ≠ derivedReason a :=
  ne_of_head head_departmentReason (head_derivedReason a) (by decide)

theorem new_ne_interest (a : String) :
    newArrivalReason ≠ interestReason a :=
  ne_of_head head_newArrivalReason (head_interestReason a) (by decide)

theorem new_ne_derived (a : String) :
    newArrivalReason ≠ derivedReason a :=
  ne_of_head head_newArrivalReason (head_derivedReason a) (by decide)

theorem new_ne_department : newArrivalReason ≠ departmentReason := by
  decide

theorem pop_ne_interest (a : String) :
    popularReason ≠ interestReason a :=
  ne_of_head head_popularReason (head_interestReason a) (by decide)

theorem pop_ne_derived (a : String) :
    popularReason ≠ derivedReason a :=
  ne_of_head head_popularReason (head_derivedReason a) (by decide)

theorem pop_ne_department : popularReason ≠ departmentReason := by
  decide

theorem pop_ne_new : popularReason ≠ newArrivalReason := by
  decide

theorem enrichOne_score_reasons (context : RecommendationContext)
    (popularIds derivedSet : List String) (nowMs : Int) (candidate : Book) :
    (enrichOne context popularIds derivedSet nowMs candidate).score =
      (if signalScore (context.explicitInterests.contains candidate.category)
          (derivedSet.contains candidate.category)
          (deptMatches context.department candidate.department)
          (isNewArrivalAt nowMs candidate.addedAt)
          (popularIds.contains candidate.id) = 0 then 1
       else signalScore (context.explicitInterests.contains candidate.category)
          (derivedSet.contains candidate.category)
          (deptMatches context.department candidate.department)
          (isNewArrivalAt nowMs candidate.addedAt)
          (popularIds.contains candidate.id)) ∧
    (enrichOne context popularIds derivedSet nowMs candidate).reasons =
      (if signalScore (context.explicitInterests.contains candidate.category)
          (derivedSet.contains candidate.category)
          (deptMatches context.department candidate.department)
          (isNewArrivalAt nowMs candidate.addedAt)
          (popularIds.contains candidate.id) = 0 then [baselineReason]
       else signalReasons candidate.category
          (context.explicitInterests.contains candidate.category)
          (derivedSet.contains candidate.category)
          (deptMatches context.department candidate.department)
          (isNewArrivalAt nowMs candidate.addedAt)
          (popularIds.contains candidate.id)) := by
  cases hi : context.explicitInterests.contains candidate.category <;>
  cases hd : derivedSet.contains candidate.category <;>
  cases hdep : deptMatches context.department candidate.department <;>
  cases hn : isNewArrivalAt nowMs candidate.addedAt <;>
  cases hp : popularIds.contains candidate.id <;>
    simp_all [enrichOne, signalScore, signalReasons, insertIfAbsent,
      derived_ne_interest, department_ne_interest, department_ne_derived,
      new_ne_interest, new_ne_derived, new_ne_department, pop_ne_interest,
      pop_ne_derived, pop_ne_department, pop_ne_new]

theorem mem_setBook : ∀ {m : List Book} {b y : Book}, y ∈ setBook m b →
    y ∈ m ∨ y = b
  | [], b, y, h => by simpa [setBook] using h
  | x :: xs, b, y, h => by
    simp only [setBook] at h
    by_cases hc : (x.id == b.id) = true
    · rw [if_pos hc, List.mem_cons] at h
      rcases h with h | h
      · exact Or.inr h
      · exact Or.inl (List.mem_cons_of_mem _ h)
    · rw [if_neg hc, List.mem_cons] at h
      rcases h with h | h
      · exact Or.inl (h ▸ List.mem_cons_self _ _)
      · rcases mem_setBook h with h1 | h1
        · exact Or.inl (List.mem_cons_of_mem _ h1)
        · exact Or.inr h1

theorem mem_foldl_setBook {l : List Book} :
    ∀ {init : List Book} {y : Book}, y ∈ l.foldl setBook init →
      y ∈ init ∨ y ∈ l := by
  induction l with
  | nil => simp
  | cons a l ih =>
    intro init y h
    rcases ih h with h1 | h1
    · rcases mem_setBook h1 with h2 | h2
      · exact Or.inl h2
      · exact Or.inr (h2 ▸ List.mem_cons_self _ _)
    · exact Or.inr (List.mem_cons_of_mem _ h1)

theorem mem_insertBookIfAbsent {m : List Book} {b y : Book}
    (h : y ∈ insertBookIfAbsent m b) : y ∈ m ∨ y = b := by
  simp only [insertBookIfAbsent] at h
  by_cases hc : containsBookId m b.id = true
  · rw [if_pos hc] at h
    exact Or.inl h
  · rw [if_neg hc] at h
    simpa using h

theorem mem_foldl_insertBookIfAbsent {l : List Book} :
    ∀ {init : List Book} {y : Book}, y ∈ l.foldl insertBookIfAbsent init →
      y ∈ init ∨ y ∈ l := by
  induction l with
  | nil => simp
  | cons a l ih =>
    intro init y h
    rcases ih h with h1 | h1
    · rcases mem_insertBookIfAbsent h1 with h2 | h2
      · exact Or.inl h2
      · exact Or.inr (h2 ▸ List.mem_cons_self _ _)
    · exact Or.inr (List.mem_cons_of_mem _ h1)

theorem foldl_insertBookIfAbsent_append {l : List Book} :
    ∀ {init : List Book}, ∃ t, l.foldl insertBookIfAbsent init = init ++ t := by
  induction l with
  | nil => exact ⟨[], by simp⟩
  | cons a l ih =>
    intro init
    simp only [List.foldl_cons, insertBookIfAbsent]
    split
    · exact ih
    · obtain ⟨t, ht⟩ := @ih (init ++ [a])
      exact ⟨[a] ++ t, by simpa using ht⟩

theorem mem_fetchCandidateBooks {db : DB} {cats : List String}
    {dept : Option String} {ex : List String} {n : Nat} {b : Book}
    (h : b ∈ fetchCandidateBooks db cats dept ex n) :
    b ∈ db.books ∧ 0 < b.availableCopies ∧ ex.contains b.id = false := by
  simp only [fetchCandidateBooks] at h
  have h1 := List.mem_mergeSort.mp (List.mem_of_mem_take h)
  simp only [List.mem_filter, Bool.and_eq_true, decide_eq_true_eq,
    Bool.not_eq_true'] at h1
  exact ⟨h1.1, h1.2.1.1, h1.2.1.2⟩

theorem mem_fetchFallbackBooks {db : DB} {ex : List String} {n : Nat} {b : Book}
    (h : b ∈ fetchFallbackBooks db ex n) :
    b ∈ db.books ∧ 0 < b.availableCopies ∧ ex.contains b.id = false := by
  simp only [fetchFallbackBooks] at h
  have h1 := List.mem_mergeSort.mp (List.mem_of_mem_take h)
  simp only [List.mem_filter, Bool.and_eq_true, decide_eq_true_eq,
    Bool.not_eq_true'] at h1
  exact ⟨h1.1, h1.2.1, h1.2.2⟩

theorem mem_fetchBooksByIds {db : DB} {ids : List String} {b : Book}
    (h : b ∈ fetchBooksByIds db ids) :
    b ∈ db.books ∧ b.id ∈ ids := by
  simp only [fetchBooksByIds, List.mem_filterMap] at h
  obtain ⟨i, hi, hfind⟩ := h
  have hmem := List.mem_of_find?_eq_some hfind
  have hp := List.find?_some hfind
  simp only [beq_iff_eq] at hp
  exact ⟨hmem, hp ▸ hi⟩

theorem mem_mergedMapFor {db : DB} {nowMs : Int} {input : RecommendationInput}
    {user : User} {y : Book} (h : y ∈ (mergedMapFor db nowMs input user).1) :
    y ∈ db.books ∧ (excludeIdsFor db input user).contains y.id = false := by
  simp only [mergedMapFor] at h
  by_cases hc : (primaryMapFor db input user).length < limitOf input
  · rw [if_pos hc] at h
    simp only at h
    by_cases hc2 :
        (((fetchFallbackBooks db (excludeIdsFor db input user)
            (limitOf input * 3)).foldl insertBookIfAbsent
              (primaryMapFor db input user)).length < limitOf input &&
          !(popularIdSetFor db nowMs).isEmpty) = true
    · rw [if_pos hc2] at h
      rcases mem_foldl_insertBookIfAbsent h with h1 | h1
      · rcases mem_foldl_insertBookIfAbsent h1 with h2 | h2
        · rcases mem_foldl_setBook h2 with h3 | h3
          · simp at h3
          · have := mem_fetchCandidateBooks h3
            exact ⟨this.1, this.2.2⟩
        · have := mem_fetchFallbackBooks h2
          exact ⟨this.1, this.2.2⟩
      · have h2 := mem_fetchBooksByIds h1
        refine ⟨h2.1, ?_⟩
        have h3 := List.mem_of_mem_take h2.2
        simp only [List.mem_filter, Bool.and_eq_true, Bool.not_eq_true'] at h3
        exact h3.2.2
    · rw [if_neg hc2] at h
      rcases mem_foldl_insertBookIfAbsent h with h1 | h1
      · rcases mem_foldl_setBook h1 with h2 | h2
        · simp at h2
        · have := mem_fetchCandidateBooks h2
          exact ⟨this.1, this.2.2⟩
      · have := mem_fetchFallbackBooks h1
        exact ⟨this.1, this.2.2⟩
  · rw [if_neg hc] at h
    simp only at h
    rcases mem_foldl_setBook h with h1 | h1
    · simp at h1
    · have := mem_fetchCandidateBooks h1
      exact ⟨this.1, this.2.2⟩

theorem enrichOne_id (context : RecommendationContext)
    (popularIds derivedSet : List String) (nowMs : Int) (c : Book) :
    (enrichOne context popularIds derivedSet nowMs c).id = c.id := rfl

theorem mem_scoredItemsFor {db : DB} {nowMs : Int} {input : RecommendationInput}
    {user : User} {r : PersonalizedRecommendation}
    (h : r ∈ scoredItemsFor db nowMs input user) :
    ∃ b ∈ (mergedMapFor db nowMs input user).1,
      r = enrichOne (contextFor db nowMs input user) (popularIdSetFor db nowMs)
        (derivedFor db user) nowMs b := by
  simp only [scoredItemsFor, enrichedFor, enrichCandidates] at h
  have h1 := List.mem_mergeSort.mp (List.mem_of_mem_take h)
  simp only [List.mem_map] at h1
  obtain ⟨b, hb, hr⟩ := h1
  exact ⟨b, hb, hr.symm⟩

theorem getRec_none {db : DB} {nowMs : Int} {input : RecommendationInput}
    (h : findUser db input.userId = none) :
    getPersonalizedRecommendations db nowMs input =
      { items := []
        context :=
          { explicitInterests := []
            derivedCategories := []
            department := none
            fallbackUsed := true } } := by
  simp only [getPersonalizedRecommendations, h]

theorem getRec_items_cases {db : DB} {nowMs : Int} {input : RecommendationInput}
    {user : User} (h : findUser db input.userId = some user) :
    (getPersonalizedRecommendations db nowMs input).items =
      scoredItemsFor db nowMs input user ∨
    (getPersonalizedRecommendations db nowMs input).items =
      buildDatasetFallback db.snapshot (interestsOf user) (departmentOf user)
        (limitOf input) (excludeIdsFor db input user) := by
  simp only [getPersonalizedRecommendations, h]
  by_cases h1 : (scoredItemsFor db nowMs input user).isEmpty
  · rw [if_pos h1]
    by_cases h2 : (buildDatasetFallback db.snapshot (interestsOf user)
        (departmentOf user) (limitOf input) (excludeIdsFor db input user)).isEmpty
    · rw [if_pos h2]
      exact Or.inl rfl
    · rw [if_neg h2]
      exact Or.inr rfl
  · rw [if_neg h1]
    exact Or.inl rfl

theorem mem_buildDatasetFallback {snapshot : Except String (List DatasetBook)}
    {interests : List String} {dept : Option String} {limit : Nat}
    {ex : List String} {r : PersonalizedRecommendation}
    (h : r ∈ buildDatasetFallback snapshot interests dept limit ex) :
    ∃ books, snapshot = .ok books ∧ ∃ b, b ∈ books ∧
      ex.contains b.id = false ∧
      r = bridgeConvert (bridgeScoreOne interests dept b) := by
  match snapshot with
  | .error e => simp [buildDatasetFallback] at h
  | .ok books =>
    simp only [buildDatasetFallback] at h
    by_cases hb : books.isEmpty
    · rw [if_pos hb] at h
      simp at h
    · rw [if_neg hb] at h
      simp only [List.mem_map] at h
      obtain ⟨sc, hsc, hr⟩ := h
      have h1 := List.mem_mergeSort.mp (List.mem_of_mem_take hsc)
      simp only [bridgeScoredFor, List.mem_map, List.mem_filter,
        Bool.not_eq_true'] at h1
      obtain ⟨b, ⟨hbmem, hbex⟩, hsc2⟩ := h1
      exact ⟨books, rfl, b, hbmem, hbex, by rw [← hr, ← hsc2]⟩

theorem contains_eq_false_iff {l : List String} {x : String} :
    l.contains x = false ↔ x ∉ l := by
  rw [List.contains, List.elem_eq_mem]
  simp

theorem scoredLE_trans (a b c : PersonalizedRecommendation)
    (hab : scoredLE a b) (hbc : scoredLE b c) : scoredLE a c := by
  simp only [scoredLE, Bool.or_eq_true, Bool.and_eq_true, decide_eq_true_eq,
    beq_iff_eq] at *
  omega

theorem scoredLE_total (a b : PersonalizedRecommendation) :
    scoredLE a b || scoredLE b a := by
  simp only [scoredLE, Bool.or_eq_true, Bool.and_eq_true, decide_eq_true_eq,
    beq_iff_eq]
  omega

theorem byAddedAtDesc_trans (a b c : Book) (hab : byAddedAtDesc a b)
    (hbc : byAddedAtDesc b c) : byAddedAtDesc a c := by
  simp only [byAddedAtDesc, decide_eq_true_eq] at *
  omega

theorem byAddedAtDesc_total (a b : Book) :
    byAddedAtDesc a b || byAddedAtDesc b a := by
  simp only [byAddedAtDesc, Bool.or_eq_true, decide_eq_true_eq]
  omega

theorem bridgeLE_trans (a b c : BridgeScored) (hab : bridgeLE a b)
    (hbc : bridgeLE b c) : bridgeLE a c := by
  simp only [bridgeLE, Bool.or_eq_true, Bool.and_eq_true, decide_eq_true_eq,
    beq_iff_eq, Bool.not_eq_true', decide_eq_false_iff_not] at *
  rcases hab with h1 | ⟨h1, h2 | ⟨h2, h3⟩⟩ <;>
    rcases hbc with g1 | ⟨g1, g2 | ⟨g2, g3⟩⟩
  · omega
  · omega
  · omega
  · omega
  · omega
  · omega
  · omega
  · omega
  · exact Or.inr ⟨h1.trans g1, Or.inr ⟨h2.trans g2,
      fun hlt => h3 (lt_of_le_of_lt (not_lt.mp g3) hlt)⟩⟩

theorem bridgeLE_total (a b : BridgeScored) :
    bridgeLE a b || bridgeLE b a := by
  simp only [bridgeLE, Bool.or_eq_true, Bool.and_eq_true, decide_eq_true_eq,
    beq_iff_eq, Bool.not_eq_true', decide_eq_false_iff_not]
  rcases Nat.lt_trichotomy a.score b.score with h | h | h
  · exact Or.inr (Or.inl h)
  · rcases Int.lt_trichotomy a.book.copies b.book.copies with h2 | h2 | h2
    · exact Or.inr (Or.inr ⟨h.symm, Or.inl h2⟩)
    · rcases le_total a.book.title b.book.title with h3 | h3
      · exact Or.inl (Or.inr ⟨h, Or.inr ⟨h2, not_lt.mpr h3⟩⟩)
      · exact Or.inr (Or.inr ⟨h.symm, Or.inr ⟨h2.symm, not_lt.mpr h3⟩⟩)
    · exact Or.inl (Or.inr ⟨h, Or.inl h2⟩)
  · exact Or.inl (Or.inl h)

theorem interest_ne_derived (a b : String) :
    interestReason a ≠ derivedReason b :=
  (derived_ne_interest b a).symm

theorem interest_ne_department (a : String) :
    interestReason a ≠ departmentReason :=
  (department_ne_interest a).symm

theorem interest_ne_new (a : String) :
    interestReason a ≠ newArrivalReason :=
  (new_ne_interest a).symm

theorem interest_ne_pop (a : String) :
    interestReason a ≠ popularReason :=
  (pop_ne_interest a).symm

theorem derived_ne_department (a : String) :
    derivedReason a ≠ departmentReason :=
  (department_ne_derived a).symm

theorem derived_ne_new (a : String) :
    derivedReason a ≠ newArrivalReason :=
  (new_ne_derived a).symm

theorem derived_ne_pop (a : String) :
    derivedReason a ≠ popularReason :=
  (pop_ne_derived a).symm

theorem department_ne_new : departmentReason ≠ newArrivalReason :=
  new_ne_department.symm

theorem department_ne_pop : departmentReason ≠ popularReason :=
  pop_ne_department.symm

theorem new_ne_pop : newArrivalReason ≠ popularReason :=
  pop_ne_new.symm

theorem nodup_signalReasons (cat : String) (i d dep n p : Bool) :
    (signalReasons cat i d dep n p).Nodup := by
  cases i <;> cases d <;> cases dep <;> cases n <;> cases p <;>
    simp [signalReasons, interest_ne_derived, interest_ne_department,
      interest_ne_new, interest_ne_pop, derived_ne_department,
      derived_ne_new, derived_ne_pop, department_ne_new, department_ne_pop,
      new_ne_pop]

theorem signalReasons_ne_nil {cat : String} {i d dep n p : Bool}
    (h : signalScore i d dep n p ≠ 0) :
    signalReasons cat i d dep n p ≠ [] := by
  cases i <;> cases d <;> cases dep <;> cases n <;> cases p <;>
    simp_all [signalScore, signalReasons]

theorem length_signalReasons (cat : String) (i d dep n p : Bool) :
    (signalReasons cat i d dep n p).length =
      (if i then 1 else 0) + (if d then 1 else 0) + (if dep then 1 else 0) +
        (if n then 1 else 0) + (if p then 1 else 0) := by
  cases i <;> cases d <;> cases dep <;> cases n <;> cases p <;>
    simp [signalReasons]

theorem bridgeFold_score_ge {interests : List String} {searchable : String}
    {l : List (Nat × String)} :
    ∀ {acc : Nat × List String × Option String}, 1 ≤ acc.1 →
      1 ≤ (l.foldl (bridgeTokenStep interests searchable) acc).1 := by
  induction l with
  | nil => intro acc h; simpa using h
  | cons x xs ih =>
    intro acc h
    refine ih ?_
    simp only [bridgeTokenStep]
    split
    · exact Nat.le_add_right_of_le h
    · exact h

theorem bridgeFold_reasons_nodup {interests : List String}
    {searchable : String} {l : List (Nat × String)} :
    ∀ {acc : Nat × List String × Option String}, acc.2.1.Nodup →
      ((l.foldl (bridgeTokenStep interests searchable) acc).2.1).Nodup := by
  induction l with
  | nil => intro acc h; simpa using h
  | cons x xs ih =>
    intro acc h
    refine ih ?_
    simp only [bridgeTokenStep]
    split
    · exact nodup_insertIfAbsent h
    · exact h

theorem bridgeScoreOne_score_ge (interests : List String)
    (dept : Option String) (b : DatasetBook) :
    1 ≤ (bridgeScoreOne interests dept b).score := by
  simp only [bridgeScoreOne]
  have h1 : 1 ≤ ((interestTokens interests).enum.foldl
      (bridgeTokenStep interests ((b.title ++ " " ++ b.author).toLower))
      (1, [], none)).1 :=
    bridgeFold_score_ge (by simp)
  split <;> split <;> simp <;> omega

theorem bridgeScoreOne_reasons_nodup (interests : List String)
    (dept : Option String) (b : DatasetBook) :
    (bridgeScoreOne interests dept b).reasons.Nodup := by
  simp only [bridgeScoreOne]
  have h1 : (((interestTokens interests).enum.foldl
      (bridgeTokenStep interests ((b.title ++ " " ++ b.author).toLower))
      (1, [], none)).2.1).Nodup :=
    bridgeFold_reasons_nodup (by simp)
  split <;> split <;> simp_all [nodup_insertIfAbsent]

/-- C1: the returned item list never exceeds the effective limit (supplied
limit, default 6), on the scored path, on the dataset bridge, and in the
final result. -/
theorem claim1_result_bounded_by_limit (db : DB) (nowMs : Int)
    (input : RecommendationInput) :
    (getPersonalizedRecommendations db nowMs input).items.length ≤ limitOf input ∧
    (∀ user, (scoredItemsFor db nowMs input user).length ≤ limitOf input) ∧
    (∀ snapshot interests dept ex,
      (buildDatasetFallback snapshot interests dept (limitOf input) ex).length ≤
        limitOf input) := by
  have hs : ∀ user, (scoredItemsFor db nowMs input user).length ≤ limitOf input := by
    intro user
    simp only [scoredItemsFor, List.length_take]
    omega
  have hb : ∀ (snapshot : Except String (List DatasetBook)) interests dept ex,
      (buildDatasetFallback snapshot interests dept (limitOf input) ex).length ≤
        limitOf input := by
    intro snapshot interests dept ex
    match snapshot with
    | .error e => simp [buildDatasetFallback]
    | .ok books =>
      simp only [buildDatasetFallback]
      by_cases hbk : books.isEmpty
      · rw [if_pos hbk]
        simp
      · rw [if_neg hbk]
        simp only [List.length_map, bridgeSortedFor, List.length_take]
        omega
  refine ⟨?_, hs, hb⟩
  cases h : findUser db input.userId with
  | none =>
    rw [getRec_none h]
    simp
  | some user =>
    rcases getRec_items_cases h with h1 | h1 <;> rw [h1]
    · exact hs user
    · exact hb _ _ _ _

/-- C6: an unresolved user id returns the fixed empty result with
fallbackUsed true, and the rest of the store is never consulted. -/
theorem claim6_unknown_user_empty (db : DB) (nowMs : Int)
    (input : RecommendationInput) (h : findUser db input.userId = none) :
    getPersonalizedRecommendations db nowMs input =
      { items := []
        context :=
          { explicitInterests := []
            derivedCategories := []
            department := none
            fallbackUsed := true } } ∧
    ∀ db2 : DB, db2.users = db.users →
      getPersonalizedRecommendations db2 nowMs input =
        getPersonalizedRecommendations db nowMs input := by
  have h0 := @getRec_none db nowMs input h
  refine ⟨h0, ?_⟩
  intro db2 hu
  have h2 : findUser db2 input.userId = none := by
    unfold findUser at h ⊢
    rw [hu]
    exact h
  rw [@getRec_none db2 nowMs input h2, h0]

/-- C9: a snapshot load failure makes the bridge return the empty list and
the overall call degrade to the scored-path result with its context. -/
theorem claim9_snapshot_error_swallowed (db : DB) (nowMs : Int)
    (input : RecommendationInput) (e : String)
    (hsnap : db.snapshot = .error e) :
    (∀ interests dept limit ex,
      buildDatasetFallback db.snapshot interests dept limit ex = []) ∧
    (∀ user, findUser db input.userId = some user →
      getPersonalizedRecommendations db nowMs input =
        { items := scoredItemsFor db nowMs input user
          context := contextFor db nowMs input user }) := by
  have hempty : ∀ interests dept limit ex,
      buildDatasetFallback db.snapshot interests dept limit ex = [] := by
    intro interests dept limit ex
    rw [hsnap]
    rfl
  refine ⟨hempty, ?_⟩
  intro user hu
  simp only [getPersonalizedRecommendations, hu]
  by_cases h1 : (scoredItemsFor db nowMs input user).isEmpty
  · rw [if_pos h1, hempty]
    simp
  · rw [if_neg h1]

/-- C10: every bridge recommendation is never a new arrival, is popular
exactly when the snapshot copy count is at least 5, reports available
copies floored at 1, and carries the dataset id namespace. -/
theorem claim10_bridge_output_shape (interests : List String)
    (dept : Option String) (limit : Nat) (ex : List String)
    (books : List DatasetBook) (r : PersonalizedRecommendation)
    (hr : r ∈ buildDatasetFallback (.ok books) interests dept limit ex) :
    ∃ b, b ∈ books ∧ r.id = "dataset-" ++ b.id ∧ r.isNewArrival = false ∧
      (r.isPopular = true ↔ 5 ≤ b.copies) ∧
      r.availableCopies = max b.copies 1 := by
  obtain ⟨books2, hok, b, hb, hex, hr2⟩ := mem_buildDatasetFallback hr
  have hbeq : books = books2 := by
    injection hok
  subst hbeq
  subst hr2
  exact ⟨b, hb, rfl, rfl, by simp [bridgeConvert, bridgeScoreOne], rfl⟩

/-- Witness for C6: the sample empty store resolves no user. -/
theorem claim6_unknown_user_empty_witness :
    findUser wdb0 winput0.userId = none ∧
    (getPersonalizedRecommendations wdb0 0 winput0 =
      { items := []
        context :=
          { explicitInterests := []
            derivedCategories := []
            department := none
            fallbackUsed := true } } ∧
    ∀ db2 : DB, db2.users = wdb0.users →
      getPersonalizedRecommendations db2 0 winput0 =
        getPersonalizedRecommendations wdb0 0 winput0) :=
  ⟨rfl, claim6_unknown_user_empty wdb0 0 winput0 rfl⟩

/-- Witness for C9 at the sample failing store. -/
theorem claim9_snapshot_error_swallowed_witness :
    wdbErr.snapshot = Except.error "boom" ∧
    ((∀ interests dept limit ex,
      buildDatasetFallback wdbErr.snapshot interests dept limit ex = []) ∧
    (∀ user, findUser wdbErr winput1.userId = some user →
      getPersonalizedRecommendations wdbErr 0 winput1 =
        { items := scoredItemsFor wdbErr 0 winput1 user
          context := contextFor wdbErr 0 winput1 user })) :=
  ⟨rfl, claim9_snapshot_error_swallowed wdbErr 0 winput1 "boom" rfl⟩

/-- Witness for C10 at a concrete one-entry snapshot. -/
theorem claim10_bridge_output_shape_witness :
    bridgeConvert (bridgeScoreOne [] none wdsb) ∈
      buildDatasetFallback (.ok [wdsb]) [] none 6 [] ∧
    ∃ b, b ∈ [wdsb] ∧
      (bridgeConvert (bridgeScoreOne [] none wdsb)).id = "dataset-" ++ b.id ∧
      (bridgeConvert (bridgeScoreOne [] none wdsb)).isNewArrival = false ∧
      ((bridgeConvert (bridgeScoreOne [] none wdsb)).isPopular = true ↔
        5 ≤ b.copies) ∧
      (bridgeConvert (bridgeScoreOne [] none wdsb)).availableCopies =
        max b.copies 1 := by
  have hmem : bridgeConvert (bridgeScoreOne [] none wdsb) ∈
      buildDatasetFallback (.ok [wdsb]) [] none 6 [] := by
    simp [buildDatasetFallback, bridgeSortedFor, bridgeScoredFor]
  exact ⟨hmem, claim10_bridge_output_shape [] none 6 [] [wdsb] _ hmem⟩

theorem notExcluded_of_contains_false {db : DB} {input : RecommendationInput}
    {user : User} {x : String} (hx : x ≠ "")
    (h : (excludeIdsFor db input user).contains x = false) :
    ¬ ExcludedId db input user x := by
  rw [contains_eq_false_iff] at h
  rw [excludeIdsFor, mem_buildExcludeSet] at h
  push_neg at h
  rintro (h1 | h1)
  · exact h.1 h1
  · exact hx (h.2 h1)

/-- C2: excluded ids (caller-supplied or actively borrowed) never surface:
not in the merged candidate map, not in the scored output, and the dataset
bridge filters raw snapshot ids against the same set. -/
theorem claim2_exclusions_respected (db : DB) (nowMs : Int)
    (input : RecommendationInput) (user : User)
    (huser : findUser db input.userId = some user)
    (hbooks : ∀ b ∈ db.books, b.id ≠ "")
    (hsnap : ∀ books, db.snapshot = Except.ok books → ∀ b ∈ books, b.id ≠ "") :
    (∀ b ∈ (mergedMapFor db nowMs input user).1,
      ¬ ExcludedId db input user b.id) ∧
    (∀ r ∈ scoredItemsFor db nowMs input user,
      ¬ ExcludedId db input user r.id) ∧
    (∀ r ∈ buildDatasetFallback db.snapshot (interestsOf user)
        (departmentOf user) (limitOf input) (excludeIdsFor db input user),
      ∃ raw, r.id = "dataset-" ++ raw ∧ ¬ ExcludedId db input user raw) ∧
    (∀ r ∈ (getPersonalizedRecommendations db nowMs input).items,
      ¬ ExcludedId db input user r.id ∨
        ∃ raw, r.id = "dataset-" ++ raw ∧ ¬ ExcludedId db input user raw) := by
  have hmerged : ∀ b ∈ (mergedMapFor db nowMs input user).1,
      ¬ ExcludedId db input user b.id := by
    intro b hb
    have h1 := mem_mergedMapFor hb
    exact notExcluded_of_contains_false (hbooks b h1.1) h1.2
  have hscored : ∀ r ∈ scoredItemsFor db nowMs input user,
      ¬ ExcludedId db input user r.id := by
    intro r hr
    obtain ⟨b, hb, hr2⟩ := mem_scoredItemsFor hr
    rw [hr2, enrichOne_id]
    exact hmerged b hb
  have hbridge : ∀ r ∈ buildDatasetFallback db.snapshot (interestsOf user)
      (departmentOf user) (limitOf input) (excludeIdsFor db input user),
      ∃ raw, r.id = "dataset-" ++ raw ∧ ¬ ExcludedId db input user raw := by
    intro r hr
    obtain ⟨books, hok, b, hb, hex, hr2⟩ := mem_buildDatasetFallback hr
    refine ⟨b.id, by rw [hr2]; rfl, ?_⟩
    exact notExcluded_of_contains_false (hsnap books hok b hb) hex
  refine ⟨hmerged, hscored, hbridge, ?_⟩
  intro r hr
  rcases getRec_items_cases huser with h1 | h1
  · rw [h1] at hr
    exact Or.inl (hscored r hr)
  · rw [h1] at hr
    exact Or.inr (hbridge r hr)

/-- C3: every returned recommendation has score at least 1 and a non-empty,
duplicate-free reason list; a candidate matching no signal gets exactly the
baseline reason and score 1. -/
theorem claim3_score_reasons_invariants :
    (∀ (db : DB) (nowMs : Int) (input : RecommendationInput) r,
      r ∈ (getPersonalizedRecommendations db nowMs input).items →
        1 ≤ r.score ∧ r.reasons ≠ [] ∧ r.reasons.Nodup) ∧
    (∀ (context : RecommendationContext) (popularIds derivedSet : List String)
        (nowMs : Int) (c : Book),
      context.explicitInterests.contains c.category = false →
      derivedSet.contains c.category = false →
      deptMatches context.department c.department = false →
      isNewArrivalAt nowMs c.addedAt = false →
      popularIds.contains c.id = false →
        (enrichOne context popularIds derivedSet nowMs c).score = 1 ∧
        (enrichOne context popularIds derivedSet nowMs c).reasons =
          [baselineReason]) := by
  have henrich : ∀ (context : RecommendationContext)
      (popularIds derivedSet : List String) (nowMs : Int) (c : Book),
      1 ≤ (enrichOne context popularIds derivedSet nowMs c).score ∧
      (enrichOne context popularIds derivedSet nowMs c).reasons ≠ [] ∧
      (enrichOne context popularIds derivedSet nowMs c).reasons.Nodup := by
    intro context popularIds derivedSet nowMs c
    obtain ⟨hsc, hrs⟩ := enrichOne_score_reasons context popularIds derivedSet
      nowMs c
    rw [hsc, hrs]
    by_cases h0 : signalScore (context.explicitInterests.contains c.category)
        (derivedSet.contains c.category)
        (deptMatches context.department c.department)
        (isNewArrivalAt nowMs c.addedAt) (popularIds.contains c.id) = 0
    · rw [if_pos h0, if_pos h0]
      refine ⟨le_refl 1, by simp, by simp⟩
    · rw [if_neg h0, if_neg h0]
      refine ⟨by omega, signalReasons_ne_nil h0, nodup_signalReasons _ _ _ _ _ _⟩
  have hbridgeItem : ∀ (interests : List String) (dept : Option String)
      (b : DatasetBook),
      1 ≤ (bridgeConvert (bridgeScoreOne interests dept b)).score ∧
      (bridgeConvert (bridgeScoreOne interests dept b)).reasons ≠ [] ∧
      (bridgeConvert (bridgeScoreOne interests dept b)).reasons.Nodup := by
    intro interests dept b
    have hsc : (bridgeConvert (bridgeScoreOne interests dept b)).score =
        (bridgeScoreOne interests dept b).score := rfl
    have hrs : (bridgeConvert (bridgeScoreOne interests dept b)).reasons =
        (if (bridgeScoreOne interests dept b).reasons.isEmpty then
          [bridgeFeaturedReason] else (bridgeScoreOne interests dept b).reasons) :=
      rfl
    rw [hsc, hrs]
    refine ⟨bridgeScoreOne_score_ge interests dept b, ?_, ?_⟩
    · by_cases he : (bridgeScoreOne interests dept b).reasons.isEmpty
      · rw [if_pos he]
        simp
      · rw [if_neg he]
        simpa using he
    · by_cases he : (bridgeScoreOne interests dept b).reasons.isEmpty
      · rw [if_pos he]
        simp
      · rw [if_neg he]
        exact bridgeScoreOne_reasons_nodup interests dept b
  constructor
  · intro db nowMs input r hr
    cases hu : findUser db input.userId with
    | none =>
      rw [getRec_none hu] at hr
      simp at hr
    | some user =>
      rcases getRec_items_cases hu with h1 | h1 <;> rw [h1] at hr
      · obtain ⟨b, hb, hr2⟩ := mem_scoredItemsFor hr
        rw [hr2]
        exact henrich _ _ _ _ _
      · obtain ⟨books, hok, b, hb, hex, hr2⟩ := mem_buildDatasetFallback hr
        rw [hr2]
        exact hbridgeItem _ _ _
  · intro context popularIds derivedSet nowMs c hi hd hdep hn hp
    obtain ⟨hsc, hrs⟩ := enrichOne_score_reasons context popularIds derivedSet
      nowMs c
    rw [hi, hd, hdep, hn, hp] at hsc hrs
    have h0 : signalScore false false false false false = 0 := rfl
    rw [h0] at hsc hrs
    simp only [if_pos rfl] at hsc hrs
    exact ⟨hsc, hrs⟩

theorem scoredLE_prop {a b : PersonalizedRecommendation}
    (h : scoredLE a b = true) :
    b.score < a.score ∨
      (a.score = b.score ∧ b.availableCopies ≤ a.availableCopies) := by
  simp only [scoredLE, Bool.or_eq_true, Bool.and_eq_true, decide_eq_true_eq,
    beq_iff_eq] at h
  omega

theorem bridgeLE_prop {a b : BridgeScored} (h : bridgeLE a b = true) :
    b.score < a.score ∨ (a.score = b.score ∧
      (b.book.copies < a.book.copies ∨
        (a.book.copies = b.book.copies ∧ a.book.title ≤ b.book.title))) := by
  simp only [bridgeLE, Bool.or_eq_true, Bool.and_eq_true, decide_eq_true_eq,
    beq_iff_eq, Bool.not_eq_true', decide_eq_false_iff_not] at h
  rcases h with h | ⟨h1, h | ⟨h2, h3⟩⟩
  · exact Or.inl h
  · exact Or.inr ⟨h1, Or.inl h⟩
  · exact Or.inr ⟨h1, Or.inr ⟨h2, not_lt.mp h3⟩⟩

theorem byAddedAtDesc_prop {a b : Book} (h : byAddedAtDesc a b = true) :
    b.addedAt ≤ a.addedAt := by
  simpa [byAddedAtDesc] using h

/-- C5: the scored path ranks by score descending with ties broken by
available copies descending, truncates to the limit, and leaves exact ties
in retrieval order (stability). -/
theorem claim5_scored_ranking (db : DB) (nowMs : Int)
    (input : RecommendationInput) (user : User) :
    scoredItemsFor db nowMs input user =
      ((enrichedFor db nowMs input user).mergeSort scoredLE).take
        (limitOf input) ∧
    List.Pairwise (fun a b : PersonalizedRecommendation =>
        b.score < a.score ∨
          (a.score = b.score ∧ b.availableCopies ≤ a.availableCopies))
      (scoredItemsFor db nowMs input user) ∧
    (scoredItemsFor db nowMs input user).length ≤ limitOf input ∧
    (∀ a b : PersonalizedRecommendation, a.score = b.score →
      a.availableCopies = b.availableCopies →
      List.Sublist [a, b] (enrichedFor db nowMs input user) →
      List.Sublist [a, b]
        ((enrichedFor db nowMs input user).mergeSort scoredLE)) := by
  refine ⟨rfl, ?_, ?_, ?_⟩
  · have hsorted := List.sorted_mergeSort scoredLE_trans scoredLE_total
      (enrichedFor db nowMs input user)
    have hprop := hsorted.imp (fun hab => scoredLE_prop hab)
    exact hprop.sublist (List.take_sublist _ _)
  · simp only [scoredItemsFor, List.length_take]
    omega
  · intro a b hsc hav hsub
    refine List.pair_sublist_mergeSort scoredLE_trans scoredLE_total ?_ hsub
    simp [scoredLE, hsc, hav]

theorem getRec_context_fallback {db : DB} {nowMs : Int}
    {input : RecommendationInput} {user : User}
    (huser : findUser db input.userId = some user)
    (h : (mergedMapFor db nowMs input user).2 = true) :
    (getPersonalizedRecommendations db nowMs input).context.fallbackUsed =
      true := by
  simp only [getPersonalizedRecommendations, huser]
  split
  · split
    · exact h
    · rfl
  · exact h

/-- C7: the broad fallback tier fires exactly when the primary tier yields
fewer distinct candidates than the limit; it then reports fallbackUsed,
merges after the primary entries without overwriting them, and its query
returns available, non-excluded books, newest first, at most three times
the limit. -/
theorem claim7_broad_fallback_tier (db : DB) (nowMs : Int)
    (input : RecommendationInput) (user : User)
    (huser : findUser db input.userId = some user) :
    ((primaryMapFor db input user).length < limitOf input →
      (mergedMapFor db nowMs input user).2 = true ∧
      (getPersonalizedRecommendations db nowMs input).context.fallbackUsed =
        true ∧
      ∃ t, (mergedMapFor db nowMs input user).1 =
        primaryMapFor db input user ++ t) ∧
    (limitOf input ≤ (primaryMapFor db input user).length →
      mergedMapFor db nowMs input user = (primaryMapFor db input user, false)) ∧
    (∀ b ∈ fetchFallbackBooks db (excludeIdsFor db input user)
        (limitOf input * 3),
      b ∈ db.books ∧ 0 < b.availableCopies ∧
        (excludeIdsFor db input user).contains b.id = false) ∧
    (fetchFallbackBooks db (excludeIdsFor db input user)
      (limitOf input * 3)).length ≤ limitOf input * 3 ∧
    List.Pairwise (fun a b : Book => b.addedAt ≤ a.addedAt)
      (fetchFallbackBooks db (excludeIdsFor db input user)
        (limitOf input * 3)) := by
  refine ⟨?_, ?_, ?_, ?_, ?_⟩
  · intro h
    have h2 : (mergedMapFor db nowMs input user).2 = true := by
      simp only [mergedMapFor]
      rw [if_pos h]
    refine ⟨h2, getRec_context_fallback huser h2, ?_⟩
    simp only [mergedMapFor]
    rw [if_pos h]
    simp only
    by_cases hc2 : (((fetchFallbackBooks db (excludeIdsFor db input user)
        (limitOf input * 3)).foldl insertBookIfAbsent
          (primaryMapFor db input user)).length < limitOf input &&
        !(popularIdSetFor db nowMs).isEmpty) = true
    · rw [if_pos hc2]
      obtain ⟨t1, ht1⟩ := @foldl_insertBookIfAbsent_append
        (fetchFallbackBooks db (excludeIdsFor db input user)
          (limitOf input * 3)) (primaryMapFor db input user)
      obtain ⟨t2, ht2⟩ := @foldl_insertBookIfAbsent_append
        (fetchBooksByIds db (((popularIdSetFor db nowMs).filter (fun i =>
          !containsBookId ((fetchFallbackBooks db (excludeIdsFor db input user)
            (limitOf input * 3)).foldl insertBookIfAbsent
              (primaryMapFor db input user)) i &&
          !(excludeIdsFor db input user).contains i)).take (limitOf input * 2)))
        ((fetchFallbackBooks db (excludeIdsFor db input user)
          (limitOf input * 3)).foldl insertBookIfAbsent
            (primaryMapFor db input user))
      rw [ht2, ht1]
      exact ⟨t1 ++ t2, by rw [List.append_assoc]⟩
    · rw [if_neg hc2]
      exact @foldl_insertBookIfAbsent_append _ _
  · intro h
    simp only [mergedMapFor]
    rw [if_neg (by omega)]
  · intro b hb
    exact mem_fetchFallbackBooks hb
  · simp only [fetchFallbackBooks, List.length_take]
    omega
  · have hsorted := List.sorted_mergeSort byAddedAtDesc_trans
      byAddedAtDesc_total (db.books.filter (fun b =>
        decide (0 < b.availableCopies) &&
          !(excludeIdsFor db input user).contains b.id))
    have hprop := hsorted.imp (fun hab => byAddedAtDesc_prop hab)
    exact hprop.sublist (List.take_sublist _ _)

/-- C8: the bridge output is ranked by score descending, then copies
descending, then title ascending, and identical inputs give identical
output lists. -/
theorem claim8_bridge_deterministic_order (interests : List String)
    (dept : Option String) (limit : Nat) (ex : List String)
    (books : List DatasetBook) :
    buildDatasetFallback (.ok books) interests dept limit ex =
      (if books.isEmpty then []
       else (bridgeSortedFor interests dept limit ex books).map bridgeConvert) ∧
    List.Pairwise (fun a b : BridgeScored =>
        b.score < a.score ∨ (a.score = b.score ∧
          (b.book.copies < a.book.copies ∨
            (a.book.copies = b.book.copies ∧ a.book.title ≤ b.book.title))))
      (bridgeSortedFor interests dept limit ex books) ∧
    (∀ books2 interests2 dept2 ex2, books2 = books → interests2 = interests →
      dept2 = dept → ex2 = ex →
      buildDatasetFallback (.ok books2) interests2 dept2 limit ex2 =
        buildDatasetFallback (.ok books) interests dept limit ex) := by
  refine ⟨rfl, ?_, ?_⟩
  · have hsorted := List.sorted_mergeSort bridgeLE_trans bridgeLE_total
      (bridgeScoredFor interests dept ex books)
    have hprop := hsorted.imp (fun hab => bridgeLE_prop hab)
    exact hprop.sublist (List.take_sublist _ _)
  · intro books2 interests2 dept2 ex2 h1 h2 h3 h4
    rw [h1, h2, h3, h4]

theorem mem_collectTop {h : List (Option String)} {x : String} :
    x ∈ collectTopCategoriesFromHistory h ↔
      2 ≤ (trimmedCategories h).count x := by
  simp only [collectTopCategoriesFromHistory, List.mem_map]
  constructor
  · rintro ⟨e, he, rfl⟩
    have h1 := List.mem_mergeSort.mp he
    rw [List.mem_filter] at h1
    obtain ⟨h2, h3⟩ := h1
    simp only [List.mem_map] at h2
    obtain ⟨k, hk, rfl⟩ := h2
    simpa using h3
  · intro h2
    refine ⟨(x, (trimmedCategories h).count x), ?_, rfl⟩
    rw [List.mem_mergeSort, List.mem_filter]
    refine ⟨?_, by simpa using h2⟩
    simp only [List.mem_map]
    refine ⟨x, mem_dedupFirst.mpr ?_, rfl⟩
    rw [← List.count_pos_iff]
    omega

/-- C4: a scored candidate's score is the sum of the five independent signal
deltas (3, 2, 2, 1, 1), with one distinct reason per fired signal (and score
forced to 1 with one baseline reason when none fire); a derived category is
exactly one with at least two occurrences in the trimmed recent history. -/
theorem claim4_signal_additivity (context : RecommendationContext)
    (popularIds derivedSet : List String) (nowMs : Int) (c : Book)
    (hdept : context.department ≠ some "")
    (hadded : c.addedAt ≤ nowMs) :
    ((enrichOne context popularIds derivedSet nowMs c).score =
      (if (if c.category ∈ context.explicitInterests then 3 else 0) +
          (if c.category ∈ derivedSet then 2 else 0) +
          (if context.department = some c.department then 2 else 0) +
          (if nowMs - c.addedAt ≤ newArrivalDays * msPerDay then 1 else 0) +
          (if c.id ∈ popularIds then 1 else 0) = 0 then 1
       else (if c.category ∈ context.explicitInterests then 3 else 0) +
          (if c.category ∈ derivedSet then 2 else 0) +
          (if context.department = some c.department then 2 else 0) +
          (if nowMs - c.addedAt ≤ newArrivalDays * msPerDay then 1 else 0) +
          (if c.id ∈ popularIds then 1 else 0))) ∧
    ((enrichOne context popularIds derivedSet nowMs c).reasons.length =
      (if (if c.category ∈ context.explicitInterests then 3 else 0) +
          (if c.category ∈ derivedSet then 2 else 0) +
          (if context.department = some c.department then 2 else 0) +
          (if nowMs - c.addedAt ≤ newArrivalDays * msPerDay then 1 else 0) +
          (if c.id ∈ popularIds then 1 else 0) = 0 then 1
       else (if c.category ∈ context.explicitInterests then 1 else 0) +
          (if c.category ∈ derivedSet then 1 else 0) +
          (if context.department = some c.department then 1 else 0) +
          (if nowMs - c.addedAt ≤ newArrivalDays * msPerDay then 1 else 0) +
          (if c.id ∈ popularIds then 1 else 0))) ∧
    (enrichOne context popularIds derivedSet nowMs c).reasons.Nodup ∧
    (∀ (h : List (Option String)) (x : String),
      x ∈ collectTopCategoriesFromHistory h ↔
        2 ≤ (trimmedCategories h).count x) := by
  have e1 : context.explicitInterests.contains c.category =
      decide (c.category ∈ context.explicitInterests) := by
    rw [List.contains, List.elem_eq_mem]
  have e2 : derivedSet.contains c.category =
      decide (c.category ∈ derivedSet) := by
    rw [List.contains, List.elem_eq_mem]
  have e5 : popularIds.contains c.id = decide (c.id ∈ popularIds) := by
    rw [List.contains, List.elem_eq_mem]
  have e3 : deptMatches context.department c.department =
      decide (context.department = some c.department) := by
    match hc : context.department with
    | none => simp [deptMatches, truthyStr]
    | some d =>
      have hd : d ≠ "" := by
        intro hde
        exact hdept (by rw [hc, hde])
      simp only [deptMatches, truthyStr, hd, decide_not, Option.some.injEq]
      have hsimp : (!decide False && c.department == d) =
          (c.department == d) := rfl
      rw [hsimp, Bool.beq_eq_decide_eq, decide_eq_decide]
      exact eq_comm
  have e4 : isNewArrivalAt nowMs c.addedAt =
      decide (nowMs - c.addedAt ≤ newArrivalDays * msPerDay) := by
    simp only [isNewArrivalAt, newArrivalDays, msPerDay, decide_eq_decide]
    omega
  obtain ⟨hsc, hrs⟩ := enrichOne_score_reasons context popularIds derivedSet
    nowMs c
  rw [e1, e2, e3, e4, e5] at hsc hrs
  simp only [signalScore, decide_eq_true_eq] at hsc
  refine ⟨hsc, ?_, ?_, fun h x => mem_collectTop⟩
  · rw [hrs]
    by_cases h0 : signalScore (decide (c.category ∈ context.explicitInterests))
        (decide (c.category ∈ derivedSet))
        (decide (context.department = some c.department))
        (decide (nowMs - c.addedAt ≤ newArrivalDays * msPerDay))
        (decide (c.id ∈ popularIds)) = 0
    · rw [if_pos h0]
      have h0p := h0
      simp only [signalScore, decide_eq_true_eq] at h0p
      rw [if_pos h0p]
      rfl
    · rw [if_neg h0]
      have h0p := h0
      simp only [signalScore, decide_eq_true_eq] at h0p
      rw [if_neg h0p, length_signalReasons]
      simp only [decide_eq_true_eq]
  · rw [hrs]
    by_cases h0 : signalScore (decide (c.category ∈ context.explicitInterests))
        (decide (c.category ∈ derivedSet))
        (decide (context.department = some c.department))
        (decide (nowMs - c.addedAt ≤ newArrivalDays * msPerDay))
        (decide (c.id ∈ popularIds)) = 0
    · rw [if_pos h0]
      simp
    · rw [if_neg h0]
      exact nodup_signalReasons _ _ _ _ _ _

/-- Witness for C2 at the sample populated store. -/
theorem claim2_exclusions_respected_witness :
    findUser wdb1 winput1.userId = some wuser ∧
    (∀ b ∈ wdb1.books, b.id ≠ "") ∧
    ((∀ b ∈ (mergedMapFor wdb1 0 winput1 wuser).1,
      ¬ ExcludedId wdb1 winput1 wuser b.id) ∧
    (∀ r ∈ scoredItemsFor wdb1 0 winput1 wuser,
      ¬ ExcludedId wdb1 winput1 wuser r.id) ∧
    (∀ r ∈ buildDatasetFallback wdb1.snapshot (interestsOf wuser)
        (departmentOf wuser) (limitOf winput1)
        (excludeIdsFor wdb1 winput1 wuser),
      ∃ raw, r.id = "dataset-" ++ raw ∧ ¬ ExcludedId wdb1 winput1 wuser raw) ∧
    (∀ r ∈ (getPersonalizedRecommendations wdb1 0 winput1).items,
      ¬ ExcludedId wdb1 winput1 wuser r.id ∨
        ∃ raw, r.id = "dataset-" ++ raw ∧
          ¬ ExcludedId wdb1 winput1 wuser raw)) :=
  ⟨rfl, by decide,
   claim2_exclusions_respected wdb1 0 winput1 wuser rfl (by decide)
     (by
       intro books h
       injection h with h2
       subst h2
       decide)⟩

/-- Witness for C4: the all-five-signals scenario scores 9 with 5 distinct
reasons. -/
theorem claim4_signal_additivity_witness :
    wctx9.department ≠ some "" ∧ wc9.addedAt ≤ wnow9 ∧
    (enrichOne wctx9 ["b9"] ["Computer Science"] wnow9 wc9).score = 9 ∧
    (enrichOne wctx9 ["b9"] ["Computer Science"] wnow9 wc9).reasons.length =
      5 := by
  refine ⟨by decide, by decide, ?_, ?_⟩
  · have h := (claim4_signal_additivity wctx9 ["b9"] ["Computer Science"]
      wnow9 wc9 (by decide) (by decide)).1
    rw [h]
    decide
  · have h := (claim4_signal_additivity wctx9 ["b9"] ["Computer Science"]
      wnow9 wc9 (by decide) (by decide)).2.1
    rw [h]
    decide

/-- Witness for C7 at the sample populated store. -/
theorem claim7_broad_fallback_tier_witness :
    findUser wdb1 winput1.userId = some wuser ∧
    (((primaryMapFor wdb1 winput1 wuser).length < limitOf winput1 →
      (mergedMapFor wdb1 0 winput1 wuser).2 = true ∧
      (getPersonalizedRecommendations wdb1 0 winput1).context.fallbackUsed =
        true ∧
      ∃ t, (mergedMapFor wdb1 0 winput1 wuser).1 =
        primaryMapFor wdb1 winput1 wuser ++ t) ∧
    (limitOf winput1 ≤ (primaryMapFor wdb1 winput1 wuser).length →
      mergedMapFor wdb1 0 winput1 wuser =
        (primaryMapFor wdb1 winput1 wuser, false)) ∧
    (∀ b ∈ fetchFallbackBooks wdb1 (excludeIdsFor wdb1 winput1 wuser)
        (limitOf winput1 * 3),
      b ∈ wdb1.books ∧ 0 < b.availableCopies ∧
        (excludeIdsFor wdb1 winput1 wuser).contains b.id = false) ∧
    (fetchFallbackBooks wdb1 (excludeIdsFor wdb1 winput1 wuser)
      (limitOf winput1 * 3)).length ≤ limitOf winput1 * 3 ∧
    List.Pairwise (fun a b : Book => b.addedAt ≤ a.addedAt)
      (fetchFallbackBooks wdb1 (excludeIdsFor wdb1 winput1 wuser)
        (limitOf winput1 * 3))) :=
  ⟨rfl, claim7_broad_fallback_tier wdb1 0 winput1 wuser rfl⟩

end VidyaLok
